import Mathlib

/-!
Verification development for the `sync-r2-to-local` command-line utility.

The program copies objects from a remote R2 bucket into a local Miniflare
(wrangler) emulator.  This file gives a shallow embedding of its logic:

* the SHA-256 / HMAC-SHA256 based derivation of the local sqlite database
  name (`durableObjectNamespaceIdFromName`),
* the reconciliation filter (`objectsToSync`),
* the local-database key listing (`listLocalObjectsFromDatabase`),
* the sequential transfer pipeline (`syncObjects`),
* the orchestrator (`syncR2ToLocal`) with its try/finally temp-dir cleanup,
* the top-level entry point (`main`) and its exit-code behaviour.

Machine words are modelled as `Nat` with explicit reduction modulo `2 ^ 32`
(`w32`) where the hash algorithm wraps; byte strings are `List Nat` with
entries below 256.
-/

/-- 32-bit truncation, applied wherever SHA-256 arithmetic wraps. -/
def w32 (n : Nat) : Nat := n % 4294967296

/-- Right rotation of a 32-bit word `b` by `n` bits. -/
def rotr (n b : Nat) : Nat := w32 ((b >>> n) ||| (b <<< (32 - n)))

/-- Group big-endian bytes into 32-bit words, four bytes per word. -/
def bytesToWords : List Nat → List Nat
  | b0 :: b1 :: b2 :: b3 :: rest =>
      (b0 * 16777216 + b1 * 65536 + b2 * 256 + b3) :: bytesToWords rest
  | _ => []

/-- Big-endian 8-byte encoding of a length-in-bits counter. -/
def be64 (n : Nat) : List Nat :=
  [(n >>> 56) % 256, (n >>> 48) % 256, (n >>> 40) % 256, (n >>> 32) % 256,
   (n >>> 24) % 256, (n >>> 16) % 256, (n >>> 8) % 256, n % 256]

/-- SHA-256 message padding: a `0x80` byte, zeros to 56 mod 64, then the
bit length as 8 big-endian bytes. -/
def padMessage (msg : List Nat) : List Nat :=
  let L := msg.length
  let zeros := (64 + 56 - (L + 1) % 64) % 64
  msg ++ [128] ++ List.replicate zeros 0 ++ be64 (8 * L)

/-- Split a byte list into successive 64-byte chunks. -/
def toChunks (l : List Nat) : List (List Nat) :=
  if h : l = [] then []
  else l.take 64 :: toChunks (l.drop 64)
termination_by l.length
decreasing_by
  simp only [List.length_drop]
  exact Nat.sub_lt (List.length_pos.mpr h) (by norm_num)

/-- Extend a 16-word message schedule by `k` further words. -/
def extendSchedule : List Nat → Nat → List Nat
  | ws, 0 => ws
  | ws, k + 1 =>
      let t := ws.length
      let x15 := ws.getD (t - 15) 0
      let x2 := ws.getD (t - 2) 0
      let s0 := (rotr 7 x15) ^^^ (rotr 18 x15) ^^^ (x15 >>> 3)
      let s1 := (rotr 17 x2) ^^^ (rotr 19 x2) ^^^ (x2 >>> 10)
      extendSchedule (ws ++ [w32 (ws.getD (t - 16) 0 + s0 + ws.getD (t - 7) 0 + s1)]) k

/-- The eight working variables of the SHA-256 compression function. -/
structure Sha256State where
  a : Nat
  b : Nat
  c : Nat
  d : Nat
  e : Nat
  f : Nat
  g : Nat
  h : Nat
deriving Repr, DecidableEq

/-- Initial SHA-256 hash value (FIPS 180-4), written as decimal words. -/
def initState : Sha256State :=
  ⟨1779033703, 3144134277, 1013904242, 2773480762,
   1359893119, 2600822924, 528734635, 1541459225⟩

/-- The 64 SHA-256 round constants (FIPS 180-4), written as decimal words. -/
def sha256K : List Nat :=
  [1116352408, 1899447441, 3049323471, 3921009573, 961987163, 1508970993,
   2453635748, 2870763221, 3624381080, 310598401, 607225278, 1426881987,
   1925078388, 2162078206, 2614888103, 3248222580, 3835390401, 4022224774,
   264347078, 604807628, 770255983, 1249150122, 1555081692, 1996064986,
   2554220882, 2821834349, 2952996808, 3210313671, 3336571891, 3584528711,
   113926993, 338241895, 666307205, 773529912, 1294757372, 1396182291,
   1695183700, 1986661051, 2177026350, 2456956037, 2730485921, 2820302411,
   3259730800, 3345764771, 3516065817, 3600352804, 4094571909, 275423344,
   430227734, 506948616, 659060556, 883997877, 958139571, 1322822218,
   1537002063, 1747873779, 1955562222, 2024104815, 2227730452, 2361852424,
   2428436474, 2756734187, 3204031479, 3329325298]

/-- One round of the SHA-256 compression function on a (constant, word) pair. -/
def sha256Round (s : Sha256State) (kw : Nat × Nat) : Sha256State :=
  let S1 := (rotr 6 s.e) ^^^ (rotr 11 s.e) ^^^ (rotr 25 s.e)
  let ch := (s.e &&& s.f) ^^^ ((s.e ^^^ 4294967295) &&& s.g)
  let temp1 := w32 (s.h + S1 + ch + kw.1 + kw.2)
  let S0 := (rotr 2 s.a) ^^^ (rotr 13 s.a) ^^^ (rotr 22 s.a)
  let maj := (s.a &&& s.b) ^^^ (s.a &&& s.c) ^^^ (s.b &&& s.c)
  let temp2 := w32 (S0 + maj)
  ⟨w32 (temp1 + temp2), s.a, s.b, s.c, w32 (s.d + temp1), s.e, s.f, s.g⟩

/-- Process one 64-byte chunk: run the 64 rounds and add into the hash state. -/
def compressChunk (H : Sha256State) (chunk : List Nat) : Sha256State :=
  let ws := extendSchedule (bytesToWords chunk) 48
  let s := (sha256K.zip ws).foldl sha256Round H
  ⟨w32 (H.a + s.a), w32 (H.b + s.b), w32 (H.c + s.c), w32 (H.d + s.d),
   w32 (H.e + s.e), w32 (H.f + s.f), w32 (H.g + s.g), w32 (H.h + s.h)⟩

/-- Big-endian 4-byte encoding of a 32-bit word. -/
def be32 (n : Nat) : List Nat :=
  [(n >>> 24) % 256, (n >>> 16) % 256, (n >>> 8) % 256, n % 256]

/-- Serialise the final hash state into the 32-byte digest. -/
def stateToBytes (s : Sha256State) : List Nat :=
  be32 s.a ++ be32 s.b ++ be32 s.c ++ be32 s.d ++
  be32 s.e ++ be32 s.f ++ be32 s.g ++ be32 s.h

/-- SHA-256 of a byte list, as `crypto.createHash('sha256')` computes it. -/
def sha256 (msg : List Nat) : List Nat :=
  stateToBytes ((toChunks (padMessage msg)).foldl compressChunk initState)

/-- HMAC-SHA256 (RFC 2104) with a 64-byte block size, as
`crypto.createHmac('sha256', key)` computes it. -/
def hmacSha256 (key msg : List Nat) : List Nat :=
  let k0 := if key.length > 64 then sha256 key else key
  let k1 := k0 ++ List.replicate (64 - k0.length) 0
  sha256 ((k1.map (fun b => b ^^^ 92)) ++ sha256 ((k1.map (fun b => b ^^^ 54)) ++ msg))

/-- UTF-8 bytes of a string, as Node's `Buffer`/hash `update` consume it. -/
def strBytes (s : String) : List Nat := s.toUTF8.toList.map (fun b => b.toNat)

/-- Lowercase hexadecimal digit for a value below 16. -/
def hexDigit (n : Nat) : Char := if n < 10 then Char.ofNat (48 + n) else Char.ofNat (87 + n)

/-- Lowercase hex characters of a byte list, two characters per byte. -/
def toHexChars : List Nat → List Char
  | [] => []
  | b :: t => hexDigit ((b / 16) % 16) :: hexDigit (b % 16) :: toHexChars t

/-- Lowercase hex encoding of a byte list, as `Buffer.toString('hex')`. -/
def toHex (bs : List Nat) : String := String.mk (toHexChars bs)

/-- The fixed Miniflare namespace constant for R2 bucket objects
(src/sync-r2-to-local.ts line 43). -/
def MINIFLARE_KEY : String := "miniflare-R2BucketObject"

/-- Embedding of `durableObjectNamespaceIdFromName` (src/sync-r2-to-local.ts
lines 176-181): SHA-256 the unique key, HMAC the bucket name, HMAC that
digest again, truncate both HMACs to 16 bytes, concatenate, hex encode. -/
def durableObjectNamespaceIdFromName (uniqueKey name : String) : String :=
  let key := sha256 (strBytes uniqueKey)
  let nameHmac := (hmacSha256 key (strBytes name)).take 16
  let hmac := (hmacSha256 key nameHmac).take 16
  toHex (nameHmac ++ hmac)

/-- The spec's four-step derivation, written from its own words (§4.2):
`key = SHA256(namespaceConstant)`; `nameDigest` = first 16 bytes of
`HMAC-SHA256(key, bucketName)`; `hmac` = first 16 bytes of
`HMAC-SHA256(key, nameDigest)`; result = `nameDigest || hmac` hex-encoded. -/
def deriveIdSpec (name : String) : String :=
  let key := sha256 (strBytes MINIFLARE_KEY)
  let nameDigest := (hmacSha256 key (strBytes name)).take 16
  let hmacPart := (hmacSha256 key nameDigest).take 16
  toHex (nameDigest ++ hmacPart)

/-- A remote listing entry (the S3 SDK's `_Object`): the fields the program
could observe are all optional in the SDK's type; the sync logic reads only
`Key`. -/
structure RemoteObject where
  Key : Option String
  Size : Option Nat
  ETag : Option String
deriving Repr, DecidableEq

/-- JavaScript falsiness of an optional string (`!key`): true exactly for
`undefined` and the empty string. -/
def strFalsy : Option String → Bool
  | none => true
  | some s => s == ""

/-- The reconciliation filter inside `syncR2ToLocal` (src/sync-r2-to-local.ts
lines 531-540): drop falsy keys, select everything in force/clean mode,
otherwise select keys missing from the local listing. -/
def objectsToSync (remoteObjects : List RemoteObject) (localObjects : List String)
    (forceSync cleanSync : Bool) : List RemoteObject :=
  remoteObjects.filter fun obj =>
    match obj.Key with
    | none => false
    | some key =>
      if key == "" then false
      else if forceSync || cleanSync then true
      else !(localObjects.contains key)

/-- Events observable during a sync run, in execution order. -/
inductive SyncEvent where
  | createdDir (p : String)
  | deletedDir (p : String)
  | listedRemote
  | listedLocal
  | downloaded (k : String)
  | uploadedLocal (k : String)
  | deletedTempFile (k : String)
deriving Repr, DecidableEq

/-- The scratch directory constant `TEMP_DIR` (line 22). -/
def TEMP_DIR : String := "./temp-r2-sync"

/-- Strip one leading `./`, as Node's `path.join` normalisation does on the
concrete paths this program builds (its segments contain no `..`, no trailing
slashes and at most one leading `./`). -/
def stripDotSlash (s : String) : String :=
  match s.data with
  | '.' :: '/' :: rest => String.mk rest
  | _ => s

/-- Join path segments with `/`. -/
def joinSegs : List String → String
  | [] => ""
  | [p] => p
  | p :: rest => p ++ "/" ++ joinSegs rest

/-- Model of `path.join` for the segments this program joins. -/
def pathJoin (parts : List String) : String := stripDotSlash (joinSegs parts)

/-- `MINIFLARE_DIR` (line 44): the sqlite directory under the configured
wrangler directory. -/
def MINIFLARE_DIR (wranglerDir : String) : String :=
  pathJoin [wranglerDir, "state", "v3", "r2", MINIFLARE_KEY]

/-- The state root that the local store's derived path lies under:
`<wranglerDir>/state/v3/r2`. -/
def stateRoot (wranglerDir : String) : String := pathJoin [wranglerDir, "state", "v3", "r2"]

/-- The path hard-coded inside `cleanLocalBucket` (line 417); note it does not
mention the configured wrangler directory. -/
def cleanLocalBucketPath : String := ".wrangler/state/v3/r2"

/-- `cleanupDirectory` (lines 147-152): recursively delete `dir` if it exists.
The filesystem is modelled as an existence map at directory-path
granularity. -/
def cleanupDirectory (fs : String → Bool) (dir : String) : (String → Bool) × List SyncEvent :=
  if fs dir then (fun p => if p == dir then false else fs p, [SyncEvent.deletedDir dir])
  else (fs, [])

/-- `ensureDirectoryExists` (lines 140-145): create `dir` if absent. -/
def ensureDirectoryExists (fs : String → Bool) (dir : String) : (String → Bool) × List SyncEvent :=
  if fs dir then (fs, [])
  else (fun p => if p == dir then true else fs p, [SyncEvent.createdDir dir])

/-- `cleanLocalBucket` (lines 413-434): delete the hard-coded
`.wrangler/state/v3/r2` tree when it exists, otherwise warn and return. -/
def cleanLocalBucket (fs : String → Bool) : (String → Bool) × List SyncEvent :=
  if fs cleanLocalBucketPath then cleanupDirectory fs cleanLocalBucketPath
  else (fs, [])

/-- `syncObjects` (lines 446-472): for each object in order, download then
upload then delete the per-object temp file; an object with a falsy key is
skipped (`if (!key) continue`); the first failing download or upload throws,
which stops the loop and propagates the error. -/
def syncObjects (download upload : String → Except String Unit) :
    List RemoteObject → List SyncEvent × Except String Unit
  | [] => ([], Except.ok ())
  | obj :: rest =>
    match obj.Key with
    | none => syncObjects download upload rest
    | some key =>
      if key == "" then syncObjects download upload rest
      else
        match download key with
        | Except.error e => ([], Except.error e)
        | Except.ok _ =>
          match upload key with
          | Except.error e => ([SyncEvent.downloaded key], Except.error e)
          | Except.ok _ =>
            let r := syncObjects download upload rest
            (SyncEvent.downloaded key :: SyncEvent.uploadedLocal key ::
              SyncEvent.deletedTempFile key :: r.1, r.2)

/-- The events of a fully successful pass over a plan: the per-object
download, upload and temp-file deletion for every non-falsy key. -/
def transferEvents : List RemoteObject → List SyncEvent
  | [] => []
  | obj :: rest =>
    match obj.Key with
    | none => transferEvents rest
    | some key =>
      if key == "" then transferEvents rest
      else SyncEvent.downloaded key :: SyncEvent.uploadedLocal key ::
        SyncEvent.deletedTempFile key :: transferEvents rest

/-- The external boundaries of one `syncR2ToLocal` run: mode flags, the
configured wrangler directory, whether the credential globals are set (the
remote client constructor throws otherwise), the initial filesystem, and the
outcomes of the remote listing, the local listing, and each per-key download
and upload. -/
structure SyncEnv where
  forceSync : Bool
  cleanSync : Bool
  wranglerDir : String
  credsOk : Bool
  fsExists : String → Bool
  remoteResult : Except String (List RemoteObject)
  localListing : List String
  download : String → Except String Unit
  upload : String → Except String Unit

/-- The try-block of `syncR2ToLocal` (lines 496-555): create the client,
ensure the temp dir, clean the local bucket in clean mode, list remote,
early-return on an empty listing, list local only in normal mode, reconcile,
early-return on an empty plan, else transfer. -/
def syncBody (env : SyncEnv) : List SyncEvent × (String → Bool) × Except String Unit :=
  if !env.credsOk then
    ([], env.fsExists, Except.error "Missing required environment variables")
  else
    let r1 := ensureDirectoryExists env.fsExists TEMP_DIR
    let r2 := if env.cleanSync then cleanLocalBucket r1.1 else (r1.1, [])
    let evs := r1.2 ++ r2.2 ++ [SyncEvent.listedRemote]
    match env.remoteResult with
    | Except.error e => (evs, r2.1, Except.error e)
    | Except.ok remoteObjects =>
      if remoteObjects.length == 0 then (evs, r2.1, Except.ok ())
      else
        let lr : List String × List SyncEvent :=
          if !env.cleanSync && !env.forceSync then (env.localListing, [SyncEvent.listedLocal])
          else ([], [])
        let plan := objectsToSync remoteObjects lr.1 env.forceSync env.cleanSync
        if plan.length == 0 then (evs ++ lr.2, r2.1, Except.ok ())
        else
          let sr := syncObjects env.download env.upload plan
          (evs ++ lr.2 ++ sr.1, r2.1, sr.2)

/-- `syncR2ToLocal` (lines 493-561): run the body; the `finally` block then
removes the scratch directory whatever the body's outcome, and the body's
result (value or re-thrown error) is passed through. -/
def syncR2ToLocal (env : SyncEnv) : List SyncEvent × (String → Bool) × Except String Unit :=
  let b := syncBody env
  let c := cleanupDirectory b.2.1 TEMP_DIR
  (b.1 ++ c.2, c.1, b.2.2)

/-- One row of the `_mf_objects` table; the program projects only `key`. -/
structure DbRow where
  key : String
deriving Repr, DecidableEq

/-- Console messages the local store reader emits. -/
inductive LogMsg where
  | warningMsg (s : String)
  | errorLogMsg (s : String)
  | infoMsg (s : String)
deriving Repr, DecidableEq

/-- The external boundaries of `listLocalObjectsFromDatabase`: whether
`MINIFLARE_DIR` exists, which files exist, and the outcome of opening and
reading the sqlite database at a path (better-sqlite3 throws synchronously on
open or read failure, modelled by the `Except.error` case). -/
structure LocalDbEnv where
  wranglerDir : String
  dirExists : Bool
  fileExists : String → Bool
  readRows : String → Except String (List DbRow)

/-- The database path built at line 287:
`` `${MINIFLARE_DIR}/${databaseName}.sqlite` ``. -/
def dbPathFor (wranglerDir bucketName : String) : String :=
  MINIFLARE_DIR wranglerDir ++ "/" ++
    durableObjectNamespaceIdFromName MINIFLARE_KEY bucketName ++ ".sqlite"

/-- `listLocalObjectsFromDatabase` (lines 275-320): absent directory or file
returns `[]` with a warning; an open/read failure is caught by the enclosing
try/catch and degrades to `[]` with an error log; otherwise the key column of
every row is returned. The Lean function is total, mirroring the catch-all:
no input makes it throw. -/
def listLocalObjectsFromDatabase (env : LocalDbEnv) (bucketName : String) :
    List String × List LogMsg :=
  if !env.dirExists then
    ([], [LogMsg.warningMsg "Miniflare R2 directory does not exist for bucket"])
  else
    let dbPath := dbPathFor env.wranglerDir bucketName
    if !env.fileExists dbPath then
      ([], [LogMsg.warningMsg "No SQLite database file found in Miniflare directory"])
    else
      match env.readRows dbPath with
      | Except.error e =>
        ([], [LogMsg.infoMsg ("Reading from SQLite database: " ++ dbPath),
              LogMsg.errorLogMsg ("Failed to list local objects: " ++ e)])
      | Except.ok rows =>
        (rows.map (fun r => r.key),
         [LogMsg.infoMsg ("Reading from SQLite database: " ++ dbPath)])

/-- `listLocalObjects` (lines 323-332): a second try/catch around the reader;
its catch branch is dead because the inner function never throws. -/
def listLocalObjects (env : LocalDbEnv) (bucketName : String) :
    List String × List LogMsg :=
  listLocalObjectsFromDatabase env bucketName

/-- The external boundaries of `main` (lines 621-662): the argument vector,
which environment variables are set to a truthy value, whether
`npx wrangler --version` succeeds, and the outcome of `syncR2ToLocal`. -/
structure MainEnv where
  args : List String
  envVarSet : String → Bool
  wranglerAvailable : Bool
  syncResult : Except String Unit

/-- `args.includes('--help') || args.includes('-h')` (line 624). -/
def helpRequested (args : List String) : Bool :=
  args.contains "--help" || args.contains "-h"

/-- `BUCKET_NAME = args[0]` (line 45): `undefined` when no arguments. -/
def bucketNameOf (args : List String) : Option String := args.head?

/-- The three credential variables checked at lines 565-569. -/
def requiredEnvVars : List String :=
  ["CLOUDFLARE_ACCOUNT_ID", "CLOUDFLARE_ACCESS_KEY_ID", "CLOUDFLARE_SECRET_ACCESS_KEY"]

/-- `required.filter((env) => !process.env[env])` (line 570). -/
def missingEnvVars (envVarSet : String → Bool) : List String :=
  requiredEnvVars.filter (fun n => !envVarSet n)

/-- How one `main` invocation ends; the bucket-carrying constructors record
which string the run used as the bucket name. -/
inductive MainOutcome where
  | helpExit
  | missingBucketExit
  | envFailure (bucket : String) (missing : List String)
  | wranglerFailure (bucket : String)
  | syncFailed (bucket : String) (e : String)
  | syncOk (bucket : String)
deriving Repr, DecidableEq

/-- `main` (lines 621-662): help check first, then the falsy-bucket check,
then the credential pre-flight (`process.exit(1)` on missing variables), then
the wrangler availability check (`process.exit(1)` on failure), then the sync
itself whose thrown error is caught and turned into `process.exit(1)`. -/
def mainOutcome (env : MainEnv) : MainOutcome :=
  if helpRequested env.args then MainOutcome.helpExit
  else
    match bucketNameOf env.args with
    | none => MainOutcome.missingBucketExit
    | some bucket =>
      if bucket == "" then MainOutcome.missingBucketExit
      else if (missingEnvVars env.envVarSet).length > 0 then
        MainOutcome.envFailure bucket (missingEnvVars env.envVarSet)
      else if !env.wranglerAvailable then MainOutcome.wranglerFailure bucket
      else
        match env.syncResult with
        | Except.ok _ => MainOutcome.syncOk bucket
        | Except.error e => MainOutcome.syncFailed bucket e

/-- The process exit status of each outcome: informational exits and natural
completion end the process with 0, every `process.exit(1)` path with 1. -/
def exitCodeOf : MainOutcome → Nat
  | MainOutcome.helpExit => 0
  | MainOutcome.missingBucketExit => 0
  | MainOutcome.envFailure _ _ => 1
  | MainOutcome.wranglerFailure _ => 1
  | MainOutcome.syncFailed _ _ => 1
  | MainOutcome.syncOk _ => 0

/-- The exit status of one `main` invocation. -/
def mainExitCode (env : MainEnv) : Nat := exitCodeOf (mainOutcome env)

/-- The bucket name a run proceeded with, when it got past the two
informational exits. -/
def outcomeBucket : MainOutcome → Option String
  | MainOutcome.envFailure b _ => some b
  | MainOutcome.wranglerFailure b => some b
  | MainOutcome.syncFailed b _ => some b
  | MainOutcome.syncOk b => some b
  | _ => none

/-- A degenerate remote listing entry whose `Key` is absent, as the SDK's
`_Object` type permits. -/
def noKeyObject : RemoteObject := ⟨none, none, none⟩

/-- A remote object with key `"a"`. -/
def objA : RemoteObject := ⟨some "a", some 3, some "etagA"⟩

/-- A remote object with key `"b"`. -/
def objB : RemoteObject := ⟨some "b", some 5, some "etagB"⟩

/-- A remote object with key `"c"`. -/
def objC : RemoteObject := ⟨some "c", some 7, some "etagC"⟩

/-- A clean-mode run configured with a custom wrangler directory, every
directory present, a healthy (empty) remote bucket. -/
def c2CustomEnv : SyncEnv where
  forceSync := false
  cleanSync := true
  wranglerDir := "/custom/.wrangler"
  credsOk := true
  fsExists := fun _ => true
  remoteResult := Except.ok []
  localListing := []
  download := fun _ => Except.ok ()
  upload := fun _ => Except.ok ()

/-- A clean-mode run with the default wrangler directory `./.wrangler`. -/
def c2DefaultEnv : SyncEnv where
  forceSync := false
  cleanSync := true
  wranglerDir := "./.wrangler"
  credsOk := true
  fsExists := fun _ => true
  remoteResult := Except.ok [objA]
  localListing := []
  download := fun _ => Except.ok ()
  upload := fun _ => Except.ok ()

/-- A force-mode run. -/
def c4Env : SyncEnv where
  forceSync := true
  cleanSync := false
  wranglerDir := "./.wrangler"
  credsOk := true
  fsExists := fun _ => true
  remoteResult := Except.ok [objA, objB]
  localListing := ["a", "b"]
  download := fun _ => Except.ok ()
  upload := fun _ => Except.ok ()

/-- A remote listing containing a keyless entry next to a keyed one. -/
def c4Remote : List RemoteObject := [noKeyObject, objA]

/-- Downloads that always succeed. -/
def dlAlwaysOk : String → Except String Unit := fun _ => Except.ok ()

/-- Uploads that fail exactly on key `"b"` (the subprocess exits non-zero
there) and succeed elsewhere. -/
def upFailsOnB : String → Except String Unit :=
  fun k => if k == "b" then Except.error "Command failed with code 1" else Except.ok ()

/-- Local-database environment: the Miniflare directory itself is absent. -/
def c6NoDirEnv : LocalDbEnv where
  wranglerDir := "./.wrangler"
  dirExists := false
  fileExists := fun _ => false
  readRows := fun _ => Except.error "unreachable"

/-- Local-database environment: directory present, database file absent. -/
def c6NoFileEnv : LocalDbEnv where
  wranglerDir := "./.wrangler"
  dirExists := true
  fileExists := fun _ => false
  readRows := fun _ => Except.error "unreachable"

/-- Local-database environment: the file exists but reading it fails (a
corrupt or locked database). -/
def c6ReadFailEnv : LocalDbEnv where
  wranglerDir := "./.wrangler"
  dirExists := true
  fileExists := fun _ => true
  readRows := fun _ => Except.error "database is locked"

/-- A two-object remote listing used for the idempotence witness. -/
def c9Remote : List RemoteObject := [objA, objB, objC]

/-- A fully healthy `main` invocation. -/
def mainEnvOk : MainEnv := ⟨["mybucket"], fun _ => true, true, Except.ok ()⟩

/-- A `main` invocation that asks for help. -/
def mainEnvHelp : MainEnv := ⟨["--help"], fun _ => true, true, Except.ok ()⟩

/-- A `main` invocation with no arguments at all. -/
def mainEnvNoArgs : MainEnv := ⟨[], fun _ => true, true, Except.ok ()⟩

/-- A `main` invocation with no credential variables set. -/
def mainEnvNoCreds : MainEnv := ⟨["mybucket"], fun _ => false, true, Except.ok ()⟩

/-- A `main` invocation where the wrangler CLI is unavailable. -/
def mainEnvNoWrangler : MainEnv := ⟨["mybucket"], fun _ => true, false, Except.ok ()⟩

/-- A `main` invocation whose sync run throws. -/
def mainEnvSyncFail : MainEnv := ⟨["mybucket"], fun _ => true, true, Except.error "Sync failed"⟩

/-- A `main` invocation whose first argument is `--force` but which also
passes `--help` later in the argument vector. -/
def mainEnvForceHelp : MainEnv := ⟨["--force", "--help"], fun _ => true, true, Except.ok ()⟩

/-- A `main` invocation whose single argument is the empty string. -/
def mainEnvEmptyArg : MainEnv := ⟨[""], fun _ => true, true, Except.ok ()⟩

/-- A `main` invocation whose only argument is the flag `--force`. -/
def mainEnvForceOnly : MainEnv := ⟨["--force"], fun _ => true, true, Except.ok ()⟩

/-- Whether a deletion of `path` appears in the trace strictly before the
remote listing is taken. -/
def deletedBeforeListing (path : String) (tr : List SyncEvent) : Bool :=
  (tr.takeWhile (fun e => !(e == SyncEvent.listedRemote))).contains
    (SyncEvent.deletedDir path)

/-! ## Helper lemmas -/

theorem toHexChars_length (bs : List Nat) : (toHexChars bs).length = 2 * bs.length := by
  induction bs with
  | nil => rfl
  | cons b t ih => simp [toHexChars, ih]; omega

theorem toHex_length (bs : List Nat) : (toHex bs).length = 2 * bs.length :=
  toHexChars_length bs

theorem stateToBytes_length (s : Sha256State) : (stateToBytes s).length = 32 := by
  simp [stateToBytes, be32]

theorem sha256_length (msg : List Nat) : (sha256 msg).length = 32 :=
  stateToBytes_length _

theorem hmacSha256_length (key msg : List Nat) : (hmacSha256 key msg).length = 32 :=
  sha256_length _

theorem durableObjectNamespaceIdFromName_length (u name : String) :
    (durableObjectNamespaceIdFromName u name).length = 64 := by
  simp only [durableObjectNamespaceIdFromName, toHex_length, List.length_append,
    List.length_take, hmacSha256_length]
  omega

theorem hexDigit_mem (n : Nat) (h : n < 16) : hexDigit n ∈ "0123456789abcdef".data := by
  revert n
  decide

theorem toHexChars_mem (bs : List Nat) (c : Char) (hc : c ∈ toHexChars bs) :
    c ∈ "0123456789abcdef".data := by
  induction bs with
  | nil => cases hc
  | cons b t ih =>
    simp only [toHexChars, List.mem_cons] at hc
    rcases hc with h | h | h
    · exact h ▸ hexDigit_mem _ (Nat.mod_lt _ (by norm_num))
    · exact h ▸ hexDigit_mem _ (Nat.mod_lt _ (by norm_num))
    · exact ih h

/-! ## C1: identifier derivation -/

/-- C1: for every bucket name, `durableObjectNamespaceIdFromName` applied to
the fixed namespace constant agrees with the spec's four-step construction
(key = SHA256 of the constant, nameDigest = first 16 bytes of
HMAC-SHA256(key, B), hmac = first 16 bytes of HMAC-SHA256(key, nameDigest),
result = hex of nameDigest ++ hmac), returns exactly 64 characters, and every
character is a lowercase hex digit. Determinism is immediate: the derivation
is a pure function of the bucket name. -/
theorem deriveId_matches_spec_hex64 (name : String) :
    durableObjectNamespaceIdFromName MINIFLARE_KEY name = deriveIdSpec name ∧
    (durableObjectNamespaceIdFromName MINIFLARE_KEY name).length = 64 ∧
    ∀ c ∈ (durableObjectNamespaceIdFromName MINIFLARE_KEY name).data,
      c ∈ "0123456789abcdef".data := by
  refine ⟨rfl, durableObjectNamespaceIdFromName_length MINIFLARE_KEY name, ?_⟩
  intro c hc
  exact toHexChars_mem _ c hc

/-! ## C3: normal-mode reconciliation -/

/-- C3: in normal mode (force and clean both false) the reconciler returns
exactly the filter of the remote listing by "key is defined, non-empty, and
absent from the local key set", and the result is a sublist of the remote
listing (same relative order, no reordering, no deduplication). -/
theorem objectsToSync_normal_mode (remoteObjects : List RemoteObject)
    (localObjects : List String) :
    objectsToSync remoteObjects localObjects false false =
      remoteObjects.filter (fun obj =>
        match obj.Key with
        | none => false
        | some key => !(key == "") && !(localObjects.contains key)) ∧
    (objectsToSync remoteObjects localObjects false false).Sublist remoteObjects := by
  constructor
  · unfold objectsToSync
    apply List.filter_congr
    intro obj _
    cases obj.Key with
    | none => rfl
    | some key => by_cases hk : key == "" <;> simp [hk]
  · exact List.filter_sublist _

/-! ## C9: idempotence of normal-mode reconciliation -/

/-- C9: if after a first normal-mode run every selected object's key has been
registered into the local key set (and nothing was removed from it), the
second normal-mode run over the unchanged remote listing selects zero
objects. -/
theorem objectsToSync_idempotent (remote : List RemoteObject)
    (localKeys localKeys' : List String)
    (hold : ∀ k ∈ localKeys, k ∈ localKeys')
    (hnew : ∀ k ∈ (objectsToSync remote localKeys false false).filterMap
      (fun o => o.Key), k ∈ localKeys') :
    objectsToSync remote localKeys' false false = [] := by
  unfold objectsToSync
  rw [List.filter_eq_nil_iff]
  intro obj hobj
  cases hk : obj.Key with
  | none => simp
  | some key =>
    by_cases hke : key == ""
    · simp [hke]
    · have hmem : key ∈ localKeys' := by
        by_cases hloc : key ∈ localKeys
        · exact hold key hloc
        · apply hnew key
          apply List.mem_filterMap.mpr
          refine ⟨obj, ?_, hk⟩
          unfold objectsToSync
          apply List.mem_filter.mpr
          refine ⟨hobj, ?_⟩
          rw [hk]
          simp [hke, hloc]
      simp [hke, hmem]

/-! ## Orchestrator lemmas -/

theorem cleanupDirectory_removes (fs : String → Bool) (dir : String) :
    (cleanupDirectory fs dir).1 dir = false := by
  unfold cleanupDirectory
  by_cases h : fs dir <;> simp [h]

theorem ensureDirectoryExists_true (fs : String → Bool) (dir p : String)
    (h : fs p = true) : (ensureDirectoryExists fs dir).1 p = true := by
  unfold ensureDirectoryExists
  by_cases hd : fs dir
  · simp [hd, h]
  · simp only [hd, Bool.false_eq_true, if_false]
    by_cases hp : p == dir <;> simp [hp, h]

theorem listedLocal_not_mem_ensure (fs : String → Bool) (d : String) :
    SyncEvent.listedLocal ∉ (ensureDirectoryExists fs d).2 := by
  unfold ensureDirectoryExists
  by_cases h : fs d <;> simp [h]

theorem listedLocal_not_mem_cleanup (fs : String → Bool) (d : String) :
    SyncEvent.listedLocal ∉ (cleanupDirectory fs d).2 := by
  unfold cleanupDirectory
  by_cases h : fs d <;> simp [h]

theorem listedLocal_not_mem_cleanLocalBucket (fs : String → Bool) :
    SyncEvent.listedLocal ∉ (cleanLocalBucket fs).2 := by
  unfold cleanLocalBucket
  by_cases h : fs cleanLocalBucketPath
  · simp only [h, if_true]
    exact listedLocal_not_mem_cleanup _ _
  · simp [h]

theorem listedLocal_not_mem_syncObjects (download upload : String → Except String Unit)
    (l : List RemoteObject) :
    SyncEvent.listedLocal ∉ (syncObjects download upload l).1 := by
  induction l with
  | nil => simp [syncObjects]
  | cons obj rest ih =>
    unfold syncObjects
    cases obj.Key with
    | none => exact ih
    | some key =>
      by_cases hk : key == ""
      · simp only [hk, if_true]
        exact ih
      · simp only [hk, Bool.false_eq_true, if_false]
        cases download key with
        | error e => simp
        | ok u =>
          cases upload key with
          | error e => simp
          | ok u' => simpa using ih

/-! ## C5: scratch directory removed on every exit path -/

/-- C5: whatever the run's exit path (normal completion, early return on an
empty remote listing or empty plan, or a thrown error anywhere), the
`finally` block removes the scratch root, so the scratch directory does not
exist after the run. -/
theorem syncR2ToLocal_removes_scratch (env : SyncEnv) :
    (syncR2ToLocal env).2.1 TEMP_DIR = false := by
  unfold syncR2ToLocal
  exact cleanupDirectory_removes _ _

/-! ## C2: clean mode's deletion target -/

/-- C2 counterexample: with a custom `--wrangler-dir=/custom/.wrangler`, clean
mode active, credentials present and every directory existing, the run never
deletes the configured state tree `/custom/.wrangler/state/v3/r2` at all
(before the listing or after): `cleanLocalBucket` deletes the hard-coded
`.wrangler/state/v3/r2` instead. -/
theorem cleanLocalBucket_ignores_wranglerDir :
    c2CustomEnv.cleanSync = true ∧
    stateRoot c2CustomEnv.wranglerDir = "/custom/.wrangler/state/v3/r2" ∧
    SyncEvent.deletedDir (stateRoot c2CustomEnv.wranglerDir) ∉ (syncR2ToLocal c2CustomEnv).1 := by
  refine ⟨rfl, by decide, ?_⟩
  decide

/-- C2 amended: when clean mode is active, the credentials are present (so
the run reaches the cleaning step) and the hard-coded tree exists, the
orchestrator deletes the fixed path `.wrangler/state/v3/r2` strictly before
the remote listing; that path coincides with the state root whose derived
path the local store reader consults exactly for the default wrangler
directory `./.wrangler`, not for a custom `--wrangler-dir`. -/
theorem syncR2ToLocal_clean_deletes_fixed_path (env : SyncEnv)
    (hclean : env.cleanSync = true) (hcreds : env.credsOk = true)
    (hfs : env.fsExists cleanLocalBucketPath = true) :
    deletedBeforeListing cleanLocalBucketPath (syncR2ToLocal env).1 = true ∧
    stateRoot "./.wrangler" = cleanLocalBucketPath := by
  refine ⟨?_, by decide⟩
  unfold syncR2ToLocal syncBody deletedBeforeListing
  rw [hcreds, hclean]
  by_cases hT : env.fsExists TEMP_DIR = true
  · cases hrem : env.remoteResult with
    | error e =>
      simp [ensureDirectoryExists, cleanLocalBucket, cleanupDirectory, hT, hfs]
    | ok remote =>
      by_cases h0 : (remote.length == 0) = true
      · simp [ensureDirectoryExists, cleanLocalBucket, cleanupDirectory, hT, hfs, h0]
      · simp [ensureDirectoryExists, cleanLocalBucket, cleanupDirectory, hT, hfs, h0]
        split <;> simp [List.takeWhile_cons]
  · cases hrem : env.remoteResult with
    | error e =>
      simp [ensureDirectoryExists, cleanLocalBucket, cleanupDirectory, hT, hfs]
    | ok remote =>
      by_cases h0 : (remote.length == 0) = true
      · simp [ensureDirectoryExists, cleanLocalBucket, cleanupDirectory, hT, hfs, h0]
      · simp [ensureDirectoryExists, cleanLocalBucket, cleanupDirectory, hT, hfs, h0]
        split <;> simp [List.takeWhile_cons]

/-- C2 witness: the amended statement holds on a concrete clean-mode run with
the default wrangler directory. -/
theorem syncR2ToLocal_clean_deletes_fixed_path_witness :
    deletedBeforeListing cleanLocalBucketPath (syncR2ToLocal c2DefaultEnv).1 = true ∧
    stateRoot "./.wrangler" = cleanLocalBucketPath :=
  syncR2ToLocal_clean_deletes_fixed_path c2DefaultEnv rfl rfl rfl

/-! ## C4: force/clean mode selection -/

theorem listedLocal_not_mem_cleanStep (fs : String → Bool) (c : Bool) :
    SyncEvent.listedLocal ∉ (if c then cleanLocalBucket fs else (fs, [])).2 := by
  cases c with
  | true => simpa using listedLocal_not_mem_cleanLocalBucket fs
  | false => simp

theorem listedLocal_not_mem_syncBody (env : SyncEnv)
    (h : (!env.cleanSync && !env.forceSync) = false) :
    SyncEvent.listedLocal ∉ (syncBody env).1 := by
  unfold syncBody
  by_cases hc : env.credsOk = true
  · cases hrem : env.remoteResult with
    | error e =>
      simp [hc, h, listedLocal_not_mem_ensure, listedLocal_not_mem_cleanStep]
    | ok remote =>
      by_cases h0 : (remote.length == 0) = true
      · simp [hc, h0, h, listedLocal_not_mem_ensure, listedLocal_not_mem_cleanStep]
      · simp [hc, h0, h, listedLocal_not_mem_ensure, listedLocal_not_mem_cleanStep,
          listedLocal_not_mem_syncObjects]
        split <;> simp [listedLocal_not_mem_ensure, listedLocal_not_mem_cleanStep,
          listedLocal_not_mem_syncObjects]
  · simp [hc]

/-- C4 counterexample: in force mode a remote object whose key is absent is
not selected, so `objectsToSync` is not the remote listing exactly. -/
theorem forceMode_keyless_object_not_selected :
    objectsToSync [noKeyObject] [] true false ≠ [noKeyObject] := by
  decide

/-- C4 amended: when force or clean mode is active the reconciler selects all
remote objects with a defined, non-empty key, regardless of the local key
set, and the local listing step is not performed at all. -/
theorem forceOrClean_selects_all_keyed (env : SyncEnv) (remote : List RemoteObject)
    (localKeys : List String) (h : (env.forceSync || env.cleanSync) = true) :
    objectsToSync remote localKeys env.forceSync env.cleanSync =
      remote.filter (fun obj => !(strFalsy obj.Key)) ∧
    SyncEvent.listedLocal ∉ (syncR2ToLocal env).1 := by
  constructor
  · unfold objectsToSync
    apply List.filter_congr
    intro obj _
    cases obj.Key with
    | none => rfl
    | some key => by_cases hk : key == "" <;> simp [strFalsy, hk, h]
  · intro hmem
    have hlr : (!env.cleanSync && !env.forceSync) = false := by
      cases hf : env.forceSync <;> cases hcl : env.cleanSync <;> simp_all
    have hmem' : SyncEvent.listedLocal ∈
        (syncBody env).1 ++ (cleanupDirectory (syncBody env).2.1 TEMP_DIR).2 := hmem
    rcases List.mem_append.mp hmem' with h1 | h2
    · exact listedLocal_not_mem_syncBody env hlr h1
    · exact listedLocal_not_mem_cleanup _ _ h2

/-- C4 witness: the amended statement at a concrete force-mode run whose
remote listing holds a keyless entry and a keyed one. -/
theorem forceOrClean_selects_all_keyed_witness :
    objectsToSync c4Remote ["a"] c4Env.forceSync c4Env.cleanSync =
      c4Remote.filter (fun obj => !(strFalsy obj.Key)) ∧
    SyncEvent.listedLocal ∉ (syncR2ToLocal c4Env).1 :=
  forceOrClean_selects_all_keyed c4Env c4Remote ["a"] rfl

/-- C9 witness: a concrete second run after registering the first run's keys
selects nothing. -/
theorem objectsToSync_idempotent_witness :
    objectsToSync c9Remote
      (["a"] ++ (objectsToSync c9Remote ["a"] false false).filterMap (fun o => o.Key))
      false false = [] :=
  objectsToSync_idempotent c9Remote ["a"]
    (["a"] ++ (objectsToSync c9Remote ["a"] false false).filterMap (fun o => o.Key))
    (by decide) (by decide)

/-! ## C6: local listing never aborts the run -/

/-- C6: `listLocalObjectsFromDatabase` is a total function (the source's
try/catch swallows every throw): an absent Miniflare directory or database
file returns the empty set together with a logged warning, and a read failure
(corrupt, locked, or mismatched database) degrades to the empty set plus log
output instead of propagating, so a local-listing failure never aborts the
sync run. -/
theorem listLocalObjects_degrades (env : LocalDbEnv) (bucketName : String) :
    (env.dirExists = false →
      listLocalObjectsFromDatabase env bucketName =
        ([], [LogMsg.warningMsg "Miniflare R2 directory does not exist for bucket"])) ∧
    (env.dirExists = true →
      env.fileExists (dbPathFor env.wranglerDir bucketName) = false →
      listLocalObjectsFromDatabase env bucketName =
        ([], [LogMsg.warningMsg "No SQLite database file found in Miniflare directory"])) ∧
    (∀ e, env.dirExists = true →
      env.fileExists (dbPathFor env.wranglerDir bucketName) = true →
      env.readRows (dbPathFor env.wranglerDir bucketName) = Except.error e →
      (listLocalObjectsFromDatabase env bucketName).1 = []) := by
  refine ⟨?_, ?_, ?_⟩
  · intro hd
    simp [listLocalObjectsFromDatabase, hd]
  · intro hd hf
    simp [listLocalObjectsFromDatabase, hd, hf]
  · intro e hd hf hr
    simp [listLocalObjectsFromDatabase, hd, hf, hr]

/-- C6 witness: the three degraded outcomes at concrete environments (absent
directory, absent file, failing read). -/
theorem listLocalObjects_degrades_witness :
    listLocalObjectsFromDatabase c6NoDirEnv "b" =
      ([], [LogMsg.warningMsg "Miniflare R2 directory does not exist for bucket"]) ∧
    listLocalObjectsFromDatabase c6NoFileEnv "b" =
      ([], [LogMsg.warningMsg "No SQLite database file found in Miniflare directory"]) ∧
    (listLocalObjectsFromDatabase c6ReadFailEnv "b").1 = [] :=
  ⟨(listLocalObjects_degrades c6NoDirEnv "b").1 rfl,
   (listLocalObjects_degrades c6NoFileEnv "b").2.1 rfl rfl,
   (listLocalObjects_degrades c6ReadFailEnv "b").2.2 "database is locked" rfl rfl rfl⟩

/-! ## C7: a failing upload aborts the batch -/

/-- C7: if every object before position `i` in the plan transfers cleanly and
the upload of the `i`-th object fails, the pipeline's result is exactly the
events of the successful prefix plus the failed object's download — no
transfer is performed for any later object, the error propagates upward, and
the prefix's uploads remain in place (no rollback events exist). -/
theorem syncObjects_stops_at_failed_upload (download upload : String → Except String Unit)
    (pre post : List RemoteObject) (obj : RemoteObject) (key err : String)
    (hkey : obj.Key = some key) (hne : (key == "") = false)
    (hdl : download key = Except.ok ())
    (hup : upload key = Except.error err)
    (hpre : ∀ o ∈ pre, ∀ j, o.Key = some j → (j == "") = false →
      download j = Except.ok () ∧ upload j = Except.ok ()) :
    syncObjects download upload (pre ++ obj :: post) =
      (transferEvents pre ++ [SyncEvent.downloaded key], Except.error err) := by
  induction pre with
  | nil =>
    simp only [List.nil_append, transferEvents]
    unfold syncObjects
    rw [hkey]
    simp [hne, hdl, hup]
  | cons o t ih =>
    have ht : ∀ o' ∈ t, ∀ j, o'.Key = some j → (j == "") = false →
        download j = Except.ok () ∧ upload j = Except.ok () :=
      fun o' ho' => hpre o' (List.mem_cons_of_mem o ho')
    have hrec := ih ht
    rw [List.cons_append]
    unfold syncObjects transferEvents
    cases ho : o.Key with
    | none => simpa using hrec
    | some j =>
      by_cases hj : (j == "") = true
      · simpa [hj] using hrec
      · have hods := hpre o (List.mem_cons_self o t) j ho (by simpa using hj)
        simp [hj, hods.1, hods.2, hrec]

/-- C7 witness: with uploads failing exactly on key `"b"`, the plan
`[a, b, c]` transfers `a`, fails on `b`, and never touches `c`. -/
theorem syncObjects_stops_at_failed_upload_witness :
    syncObjects dlAlwaysOk upFailsOnB ([objA] ++ objB :: [objC]) =
      (transferEvents [objA] ++ [SyncEvent.downloaded "b"],
        Except.error "Command failed with code 1") :=
  syncObjects_stops_at_failed_upload dlAlwaysOk upFailsOnB [objA] [objC] objB "b"
    "Command failed with code 1" rfl rfl rfl rfl
    (by
      intro o ho j hj hne
      rw [List.mem_singleton] at ho
      subst ho
      have : some "a" = some j := hj
      cases this
      exact ⟨rfl, rfl⟩)

/-! ## C8: process exit codes -/

/-- C8: the process exits 0 on a successful sync and on the informational
exits (help requested, or falsy bucket name), and exits 1 on every checked
failure: missing credential variables, wrangler unavailable, or an exception
thrown during the sync. -/
theorem main_exit_codes (env : MainEnv) :
    (helpRequested env.args = true → mainExitCode env = 0) ∧
    (helpRequested env.args = false → strFalsy (bucketNameOf env.args) = true →
      mainExitCode env = 0) ∧
    (helpRequested env.args = false → strFalsy (bucketNameOf env.args) = false →
      missingEnvVars env.envVarSet ≠ [] → mainExitCode env = 1) ∧
    (helpRequested env.args = false → strFalsy (bucketNameOf env.args) = false →
      missingEnvVars env.envVarSet = [] → env.wranglerAvailable = false →
      mainExitCode env = 1) ∧
    (helpRequested env.args = false → strFalsy (bucketNameOf env.args) = false →
      missingEnvVars env.envVarSet = [] → env.wranglerAvailable = true →
      env.syncResult = Except.ok () → mainExitCode env = 0) ∧
    (∀ e, helpRequested env.args = false → strFalsy (bucketNameOf env.args) = false →
      missingEnvVars env.envVarSet = [] → env.wranglerAvailable = true →
      env.syncResult = Except.error e → mainExitCode env = 1) := by
  have hbucket : ∀ b, bucketNameOf env.args = some b → (b == "") = false →
      mainOutcome env = (if helpRequested env.args then MainOutcome.helpExit
        else if (missingEnvVars env.envVarSet).length > 0 then
          MainOutcome.envFailure b (missingEnvVars env.envVarSet)
        else if !env.wranglerAvailable then MainOutcome.wranglerFailure b
        else match env.syncResult with
          | Except.ok _ => MainOutcome.syncOk b
          | Except.error e => MainOutcome.syncFailed b e) := by
    intro b hb hbe
    unfold mainOutcome
    rw [hb]
    by_cases hh : helpRequested env.args = true <;> simp [hh, hbe]
  refine ⟨?_, ?_, ?_, ?_, ?_, ?_⟩
  · intro hh
    simp [mainExitCode, mainOutcome, hh, exitCodeOf]
  · intro hh hb
    cases hob : bucketNameOf env.args with
    | none => simp [mainExitCode, mainOutcome, hh, hob, exitCodeOf]
    | some b =>
      rw [hob] at hb
      simp only [strFalsy] at hb
      simp [mainExitCode, mainOutcome, hh, hob, hb, exitCodeOf]
  · intro hh hb hm
    cases hob : bucketNameOf env.args with
    | none => rw [hob] at hb; simp [strFalsy] at hb
    | some b =>
      rw [hob] at hb
      simp only [strFalsy] at hb
      have hlen : (missingEnvVars env.envVarSet).length > 0 :=
        List.length_pos.mpr hm
      rw [mainExitCode, hbucket b hob hb]
      simp [hh, hlen, exitCodeOf]
  · intro hh hb hm hw
    cases hob : bucketNameOf env.args with
    | none => rw [hob] at hb; simp [strFalsy] at hb
    | some b =>
      rw [hob] at hb
      simp only [strFalsy] at hb
      rw [mainExitCode, hbucket b hob hb]
      simp [hh, hm, hw, exitCodeOf]
  · intro hh hb hm hw hs
    cases hob : bucketNameOf env.args with
    | none => rw [hob] at hb; simp [strFalsy] at hb
    | some b =>
      rw [hob] at hb
      simp only [strFalsy] at hb
      rw [mainExitCode, hbucket b hob hb]
      simp [hh, hm, hw, hs, exitCodeOf]
  · intro e hh hb hm hw hs
    cases hob : bucketNameOf env.args with
    | none => rw [hob] at hb; simp [strFalsy] at hb
    | some b =>
      rw [hob] at hb
      simp only [strFalsy] at hb
      rw [mainExitCode, hbucket b hob hb]
      simp [hh, hm, hw, hs, exitCodeOf]

/-- C8 witness: each exit path at a concrete invocation: help, no bucket,
missing credentials, wrangler unavailable, successful sync, failing sync. -/
theorem main_exit_codes_witness :
    mainExitCode mainEnvHelp = 0 ∧ mainExitCode mainEnvNoArgs = 0 ∧
    mainExitCode mainEnvNoCreds = 1 ∧ mainExitCode mainEnvNoWrangler = 1 ∧
    mainExitCode mainEnvOk = 0 ∧ mainExitCode mainEnvSyncFail = 1 :=
  ⟨(main_exit_codes mainEnvHelp).1 rfl,
   (main_exit_codes mainEnvNoArgs).2.1 rfl rfl,
   (main_exit_codes mainEnvNoCreds).2.2.1 rfl rfl (by decide),
   (main_exit_codes mainEnvNoWrangler).2.2.2.1 rfl rfl rfl rfl,
   (main_exit_codes mainEnvOk).2.2.2.2.1 rfl rfl rfl rfl rfl,
   (main_exit_codes mainEnvSyncFail).2.2.2.2.2 "Sync failed" rfl rfl rfl rfl rfl⟩

/-! ## C10: bucket-name parsing -/

/-- C10 counterexample: `["--force", "--help"]` has the flag `--force` (not a
help flag) as its first argument, yet the run takes the help exit instead of
proceeding with `--force` as the bucket name; and `[""]` is a non-empty
argument vector that still reaches the missing-bucket-name exit. -/
theorem firstArg_not_always_bucket :
    mainEnvForceHelp.args.head? = some "--force" ∧
    mainOutcome mainEnvForceHelp = MainOutcome.helpExit ∧
    mainEnvEmptyArg.args ≠ [] ∧
    mainOutcome mainEnvEmptyArg = MainOutcome.missingBucketExit := by
  refine ⟨rfl, by decide, by decide, by decide⟩

/-- C10 amended: the bucket name is `args[0]`. If `--help` or `-h` appears
anywhere among the arguments the help exit is taken first; otherwise, when no
arguments are given or the first argument is the empty string, the
missing-bucket informational exit is taken; otherwise the run proceeds with
`args[0]` — even an option flag such as `--force` — as the bucket name. -/
theorem bucket_is_first_arg (env : MainEnv) :
    (helpRequested env.args = true → mainOutcome env = MainOutcome.helpExit) ∧
    (helpRequested env.args = false → strFalsy (bucketNameOf env.args) = true →
      mainOutcome env = MainOutcome.missingBucketExit) ∧
    (∀ f, helpRequested env.args = false → env.args.head? = some f →
      (f == "") = false → outcomeBucket (mainOutcome env) = some f) := by
  refine ⟨?_, ?_, ?_⟩
  · intro hh
    simp [mainOutcome, hh]
  · intro hh hb
    cases hob : bucketNameOf env.args with
    | none => simp [mainOutcome, hh, hob]
    | some b =>
      rw [hob] at hb
      simp only [strFalsy] at hb
      simp [mainOutcome, hh, hob, hb]
  · intro f hh hf hfe
    have hob : bucketNameOf env.args = some f := hf
    unfold mainOutcome
    rw [hob]
    by_cases hm : (missingEnvVars env.envVarSet).length > 0
    · simp [hh, hfe, hm, outcomeBucket]
    · by_cases hw : env.wranglerAvailable = true
      · cases hs : env.syncResult with
        | ok u => simp [hh, hfe, hm, hw, hs, outcomeBucket]
        | error e => simp [hh, hfe, hm, hw, hs, outcomeBucket]
      · simp [hh, hfe, hm, hw, outcomeBucket]

/-- C10 witness: a run invoked as `--force` alone proceeds using `--force`
itself as the bucket name. -/
theorem bucket_is_first_arg_witness :
    outcomeBucket (mainOutcome mainEnvForceOnly) = some "--force" :=
  (bucket_is_first_arg mainEnvForceOnly).2.2 "--force" rfl rfl rfl
